import Mathlib

/-!
Verification of the document preprocessing pipeline
(`preprocess_pipeline.py`): format dispatch, per-format content
extraction, normalization into a common record schema, metadata
enrichment, and folder-level batch processing with per-file failure
isolation.

The underlying format decoders (pdfplumber, python-docx, pandas,
python-pptx, ebooklib) are external collaborators consumed only through
their extraction contracts; a document is therefore modelled by the
shape its decoder exposes to the pipeline (pages, paragraphs, sheets,
slides/shapes, package items), and a malformed file by a `corrupt`
value on which every decoder raises.
-/

deriving instance DecidableEq for Except

namespace PreprocessPipeline

/-- Model of a scalar spreadsheet cell value (pandas cell). -/
inductive CellVal where
  | intVal (n : Int)
  | strVal (s : String)
deriving DecidableEq

/-- A row record as produced by `df.to_dict(orient='records')`:
an ordered mapping from column label to cell value. -/
abbrev Row := List (String × CellVal)

/-- The table set returned by `extract_tables_from_excel`: an ordered
mapping from sheet name to that sheet's rows. -/
abbrev TableSet := List (String × List Row)

/-- Model of a file's content as exposed by the external decoders.

* `pdfFile pages` — a PDF as the list of its pages in file order; each
  page's `extract_text()` result (`none` models a page yielding no text,
  e.g. image-only).
* `docxFile paragraphs` — a Word document as its paragraphs' text in
  document order.
* `xlsxFile sheets` — a workbook as `pd.read_excel(..., sheet_name=None)`
  exposes it, already in row-record form.
* `pptxFile slides` — a presentation as slides of shapes; a shape is
  `some t` when it has a `text` attribute and `none` otherwise.
* `epubFile items` — an EPUB package as its items in package order:
  `(isDocument, content)` where `content = none` models raw bytes that
  are not valid UTF-8 (decoding raises).
* `corrupt` — a malformed file: every decoder raises on it. -/
inductive FileData where
  | pdfFile (pages : List (Option String))
  | docxFile (paragraphs : List String)
  | xlsxFile (sheets : TableSet)
  | pptxFile (slides : List (List (Option String)))
  | epubFile (items : List (Bool × Option String))
  | corrupt
deriving DecidableEq

/-- Error taxonomy of the pipeline: `unsupportedFormat` is the
`ValueError(f"Unsupported file type: {file_path}")` raised by the
orchestrator itself; `extractionFailure` is any error surfaced by an
underlying decoder. -/
inductive PipelineError where
  | unsupportedFormat (file_path : String)
  | extractionFailure
deriving DecidableEq

/-- The metadata mapping: recognized keys `author`, `date`, `source`,
each optionally present. -/
structure Metadata where
  author : Option String
  date : Option String
  src : Option String
deriving DecidableEq

/-- The normalized record `{file_type, content, metadata}` built by
`normalize_to_json`. `content` is a `String`: there is no null value in
the model — failed extraction yields an `Except.error`, never a partial
record. -/
structure Record where
  file_type : String
  content : String
  metadata : Metadata
deriving DecidableEq

/-- Model of `Char` whitespace as used by Python's `str.strip()`. -/
def isWS (c : Char) : Bool := c.isWhitespace

/-- `str.strip()` on the underlying character list: drop whitespace from
the front, then from the back. -/
def stripList (l : List Char) : List Char :=
  ((l.dropWhile isWS).reverse.dropWhile isWS).reverse

/-- Model of Python's `str.strip()`. -/
def pyStrip (s : String) : String := ⟨stripList s.data⟩

/-- Model of Python's `str.endswith(suffix)`: exact suffix match on the
character sequence. -/
def endswith (s sfx : String) : Bool := List.isSuffixOf sfx.data s.data

/-- Model of `os.path.basename` on POSIX paths: the part after the last
slash (the whole string when there is no slash). -/
def basename (p : String) : String :=
  ⟨(p.data.reverse.takeWhile fun c => c != '/').reverse⟩

/-- `extract_text_from_pdf`: iterate pages in file order, append each
page's text when it is truthy (non-`None` and non-empty), then strip the
concatenation. Any non-PDF or malformed input makes the decoder raise. -/
def extract_text_from_pdf : FileData → Except PipelineError String
  | .pdfFile pages =>
      .ok (pyStrip (pages.foldl
        (fun acc p =>
          match p with
          | some page_text => if page_text = "" then acc else acc ++ page_text
          | none => acc) ""))
  | _ => .error .extractionFailure

/-- `extract_text_from_docx`: join every paragraph's text with a single
space and strip the result. -/
def extract_text_from_docx : FileData → Except PipelineError String
  | .docxFile paragraphs => .ok (pyStrip (String.intercalate " " paragraphs))
  | _ => .error .extractionFailure

/-- `extract_tables_from_excel`: the sheet-name-to-row-records mapping,
exactly as `pd.read_excel(..., sheet_name=None)` plus
`df.to_dict(orient='records')` expose it. -/
def extract_tables_from_excel : FileData → Except PipelineError TableSet
  | .xlsxFile sheets => .ok sheets
  | _ => .error .extractionFailure

/-- `extract_text_from_ppt`: iterate slides, then shapes; for every
shape with a `text` attribute append its text followed by a newline;
strip the final result. -/
def extract_text_from_ppt : FileData → Except PipelineError String
  | .pptxFile slides =>
      .ok (pyStrip (slides.foldl
        (fun acc sl => sl.foldl
          (fun a sh =>
            match sh with
            | some t => a ++ t ++ "\n"
            | none => a) acc) ""))
  | _ => .error .extractionFailure

/-- Concatenation loop of `extract_text_from_epub`: document-type items
are decoded as UTF-8 (raising on invalid bytes, modelled by `none`) and
concatenated without separator. -/
def epubConcat : List (Bool × Option String) → String → Except PipelineError String
  | [], acc => .ok acc
  | (isDoc, c) :: rest, acc =>
      if isDoc then
        match c with
        | some s => epubConcat rest (acc ++ s)
        | none => .error .extractionFailure
      else epubConcat rest acc

/-- `extract_text_from_epub`: concatenate the decoded content of the
package's document items in package order, then strip. -/
def extract_text_from_epub : FileData → Except PipelineError String
  | .epubFile items => (epubConcat items "").map pyStrip
  | _ => .error .extractionFailure

/-- `normalize_to_json`: pure construction of the three-field record. -/
def normalize_to_json (file_type : String) (content : String) (metadata : Metadata) : Record :=
  { file_type := file_type, content := content, metadata := metadata }

/-- Python truthiness of an optional string argument: `None` and the
empty string are falsy. -/
def truthy : Option String → Bool
  | some s => s != ""
  | none => false

/-- `enrich_with_metadata(data, author=None, date=None, source=None)`:
set each of the three metadata fields only if the corresponding argument
is truthy, and return the record. -/
def enrich_with_metadata (data : Record) (author date src : Option String) : Record :=
  let m1 := if truthy author then { data.metadata with author := author } else data.metadata
  let m2 := if truthy date then { m1 with date := date } else m1
  let m3 := if truthy src then { m2 with src := src } else m2
  { data with metadata := m3 }

/-- Python `repr` of a string for the purposes of `str(tables)`: the
text between single quotes (quote/escape edge cases of `repr` are not
exercised by sheet data in scope). -/
def pyQuote (s : String) : String := "\x27" ++ s ++ "\x27"

/-- Python `str` of a cell value inside a dict display. -/
def pyReprCell : CellVal → String
  | .intVal n => toString n
  | .strVal s => pyQuote s

/-- Python `str` of one row record, e.g. `\x7b'A': 1, 'B': 2\x7d`. -/
def pyReprRow (row : Row) : String :=
  "\x7b" ++ String.intercalate ", "
    (row.map fun kv => pyQuote kv.1 ++ ": " ++ pyReprCell kv.2) ++ "\x7d"

/-- Python `str(tables)` for the sheet-to-rows dict built by
`extract_tables_from_excel`. -/
def pyStrTables (tables : TableSet) : String :=
  "\x7b" ++ String.intercalate ", "
    (tables.map fun st =>
      pyQuote st.1 ++ ": [" ++ String.intercalate ", " (st.2.map pyReprRow) ++ "]")
    ++ "\x7d"

/-- The default metadata built by `preprocess_document`. -/
def defaultMetadata (file_path : String) : Metadata :=
  { author := some "Unknown", date := some "2023-10-01", src := some (basename file_path) }

/-- `preprocess_document(file_path)`: dispatch on the path's suffix via
`str.endswith`, run the matching extractor (spreadsheet results are
passed through `str(...)`), build default metadata, and normalize.
A path matching none of the five suffixes raises the unsupported-format
`ValueError`. Extraction failure propagates unchanged. -/
def preprocess_document (file_path : String) (data : FileData) : Except PipelineError Record :=
  if endswith file_path ".pdf" = true then
    (extract_text_from_pdf data).map fun text =>
      normalize_to_json "PDF" text (defaultMetadata file_path)
  else if endswith file_path ".docx" = true then
    (extract_text_from_docx data).map fun text =>
      normalize_to_json "Word" text (defaultMetadata file_path)
  else if endswith file_path ".xlsx" = true then
    (extract_tables_from_excel data).map fun tables =>
      normalize_to_json "Excel" (pyStrTables tables) (defaultMetadata file_path)
  else if endswith file_path ".pptx" = true then
    (extract_text_from_ppt data).map fun text =>
      normalize_to_json "PowerPoint" text (defaultMetadata file_path)
  else if endswith file_path ".epub" = true then
    (extract_text_from_epub data).map fun text =>
      normalize_to_json "EPUB" text (defaultMetadata file_path)
  else .error (.unsupportedFormat file_path)

/-- Index of the last `.` in a character list, if any (CPython
`str.rfind('.')` restricted to a found result). -/
def lastDotIdx (l : List Char) : Option Nat :=
  ((l.enum.filter fun p => p.2 == '.').map fun p => p.1).getLast?

/-- Model of `pathlib.PurePath.suffix` on a file name: the part from the
last dot on, provided that dot is neither the first nor the last
character; otherwise the empty string. -/
def pySuffix (name : String) : String :=
  match lastDotIdx name.data with
  | some i => if 0 < i ∧ i + 1 < name.data.length then ⟨name.data.drop i⟩ else ""
  | none => ""

/-- Model of `pathlib.PurePath.stem` on a file name: the name with its
`pySuffix` removed. -/
def pyStem (name : String) : String :=
  match lastDotIdx name.data with
  | some i => if 0 < i ∧ i + 1 < name.data.length then ⟨name.data.take i⟩ else name

  | none => name

/-- A directory entry as `Path.iterdir()` yields it: its final-component
name, whether it is a regular file, and the file content behind it. -/
structure DirEntry where
  name : String
  isFile : Bool
  data : FileData
deriving DecidableEq

/-- The supported file extensions of `process_folder`. -/
def extensions : List String := [".pdf", ".docx", ".xlsx", ".pptx", ".epub"]

/-- Model of `Path(folder) / name` as a string: `Path('.') / n` is just
`n`; otherwise the slash-joined path. -/
def joinPath (folder name : String) : String :=
  if folder = "." then name else folder ++ "/" ++ name

/-- Whether a pipeline step succeeded. -/
def isOkResult (r : Except PipelineError Record) : Bool :=
  match r with
  | .ok _ => true
  | .error _ => false

/-- The per-file loop of `process_folder`: for each entry that is a
regular file whose `pathlib` suffix is in the supported set, run
`preprocess_document`; on success record the file name and the JSON
write to `<stem>_normalized.json`; on any failure log and continue (the
failure is not re-raised). Returns the succeeded names in enumeration
order together with the sequence of output writes. -/
def processEntries (folder : String) : List DirEntry → List String × List (String × Record)
  | [] => ([], [])
  | e :: rest =>
      let tail := processEntries folder rest
      if e.isFile && extensions.contains (pySuffix e.name) then
        match preprocess_document (joinPath folder e.name) e.data with
        | .ok result => (e.name :: tail.1, (pyStem e.name ++ "_normalized.json", result) :: tail.2)
        | .error _ => tail
      else tail

/-- `process_folder(folder_path, output_folder)`: its return value (the
succeeded file names) paired with the output files it writes. -/
def process_folder (folder : String) (entries : List DirEntry) :
    List String × List (String × Record) :=
  processEntries folder entries

/-- A string never ends with two suffixes neither of which is a suffix
of the other. -/
lemma endswith_excl (p e1 e2 : String) (h : endswith p e1 = true)
    (h12 : e1.data.isSuffixOf e2.data = false)
    (h21 : e2.data.isSuffixOf e1.data = false) :
    endswith p e2 = false := by
  unfold endswith at h ⊢
  rw [List.isSuffixOf_iff_suffix] at h
  by_contra hc
  rw [Bool.not_eq_false, List.isSuffixOf_iff_suffix] at hc
  rcases List.suffix_or_suffix_of_suffix h hc with h1 | h1
  · rw [← List.isSuffixOf_iff_suffix] at h1
    rw [h1] at h12
    cases h12
  · rw [← List.isSuffixOf_iff_suffix] at h1
    rw [h1] at h21
    cases h21

/-- Dispatch: a path ending in `.pdf` goes to the PDF extractor. -/
lemma dispatch_pdf (file_path : String) (data : FileData)
    (h : endswith file_path ".pdf" = true) :
    preprocess_document file_path data =
      (extract_text_from_pdf data).map fun text =>
        normalize_to_json "PDF" text (defaultMetadata file_path) := by
  unfold preprocess_document
  rw [h]
  simp

/-- Dispatch: a path ending in `.docx` goes to the Word extractor. -/
lemma dispatch_docx (file_path : String) (data : FileData)
    (h : endswith file_path ".docx" = true) :
    preprocess_document file_path data =
      (extract_text_from_docx data).map fun text =>
        normalize_to_json "Word" text (defaultMetadata file_path) := by
  have h1 : endswith file_path ".pdf" = false :=
    endswith_excl file_path ".docx" ".pdf" h (by decide) (by decide)
  unfold preprocess_document
  rw [h1, h]
  simp

/-- Dispatch: a path ending in `.xlsx` goes to the Excel extractor and
its table set is stringified. -/
lemma dispatch_xlsx (file_path : String) (data : FileData)
    (h : endswith file_path ".xlsx" = true) :
    preprocess_document file_path data =
      (extract_tables_from_excel data).map fun tables =>
        normalize_to_json "Excel" (pyStrTables tables) (defaultMetadata file_path) := by
  have h1 : endswith file_path ".pdf" = false :=
    endswith_excl file_path ".xlsx" ".pdf" h (by decide) (by decide)
  have h2 : endswith file_path ".docx" = false :=
    endswith_excl file_path ".xlsx" ".docx" h (by decide) (by decide)
  unfold preprocess_document
  rw [h1, h2, h]
  simp

/-- Dispatch: a path ending in `.pptx` goes to the PowerPoint
extractor. -/
lemma dispatch_pptx (file_path : String) (data : FileData)
    (h : endswith file_path ".pptx" = true) :
    preprocess_document file_path data =
      (extract_text_from_ppt data).map fun text =>
        normalize_to_json "PowerPoint" text (defaultMetadata file_path) := by
  have h1 : endswith file_path ".pdf" = false :=
    endswith_excl file_path ".pptx" ".pdf" h (by decide) (by decide)
  have h2 : endswith file_path ".docx" = false :=
    endswith_excl file_path ".pptx" ".docx" h (by decide) (by decide)
  have h3 : endswith file_path ".xlsx" = false :=
    endswith_excl file_path ".pptx" ".xlsx" h (by decide) (by decide)
  unfold preprocess_document
  rw [h1, h2, h3, h]
  simp

/-- Dispatch: a path ending in `.epub` goes to the EPUB extractor. -/
lemma dispatch_epub (file_path : String) (data : FileData)
    (h : endswith file_path ".epub" = true) :
    preprocess_document file_path data =
      (extract_text_from_epub data).map fun text =>
        normalize_to_json "EPUB" text (defaultMetadata file_path) := by
  have h1 : endswith file_path ".pdf" = false :=
    endswith_excl file_path ".epub" ".pdf" h (by decide) (by decide)
  have h2 : endswith file_path ".docx" = false :=
    endswith_excl file_path ".epub" ".docx" h (by decide) (by decide)
  have h3 : endswith file_path ".xlsx" = false :=
    endswith_excl file_path ".epub" ".xlsx" h (by decide) (by decide)
  have h4 : endswith file_path ".pptx" = false :=
    endswith_excl file_path ".epub" ".pptx" h (by decide) (by decide)
  unfold preprocess_document
  rw [h1, h2, h3, h4, h]
  simp

/-- Dispatch: a path matching no supported suffix raises the
unsupported-format error. -/
lemma dispatch_unsupported (file_path : String) (data : FileData)
    (h1 : endswith file_path ".pdf" = false)
    (h2 : endswith file_path ".docx" = false)
    (h3 : endswith file_path ".xlsx" = false)
    (h4 : endswith file_path ".pptx" = false)
    (h5 : endswith file_path ".epub" = false) :
    preprocess_document file_path data = .error (.unsupportedFormat file_path) := by
  unfold preprocess_document
  rw [h1, h2, h3, h4, h5]
  simp

/-- The PDF extractor fails only with an extraction failure. -/
lemma extract_text_from_pdf_error (data : FileData) (e : PipelineError)
    (h : extract_text_from_pdf data = .error e) : e = .extractionFailure := by
  cases data <;> simp [extract_text_from_pdf] at h <;> simp [h]

/-- The Word extractor fails only with an extraction failure. -/
lemma extract_text_from_docx_error (data : FileData) (e : PipelineError)
    (h : extract_text_from_docx data = .error e) : e = .extractionFailure := by
  cases data <;> simp [extract_text_from_docx] at h <;> simp [h]

/-- The Excel extractor fails only with an extraction failure. -/
lemma extract_tables_from_excel_error (data : FileData) (e : PipelineError)
    (h : extract_tables_from_excel data = .error e) : e = .extractionFailure := by
  cases data <;> simp [extract_tables_from_excel] at h <;> simp [h]

/-- The PowerPoint extractor fails only with an extraction failure. -/
lemma extract_text_from_ppt_error (data : FileData) (e : PipelineError)
    (h : extract_text_from_ppt data = .error e) : e = .extractionFailure := by
  cases data <;> simp [extract_text_from_ppt] at h <;> simp [h]

/-- The EPUB concatenation loop fails only with an extraction
failure. -/
lemma epubConcat_error : ∀ (items : List (Bool × Option String)) (acc : String)
    (e : PipelineError), epubConcat items acc = .error e → e = .extractionFailure := by
  intro items
  induction items with
  | nil => intro acc e h; simp [epubConcat] at h
  | cons it rest ih =>
    intro acc e h
    rcases it with ⟨isDoc, c⟩
    cases isDoc
    · simp [epubConcat] at h
      exact ih _ _ h
    · rcases c with _ | s
      · simp [epubConcat] at h
        simp [h]
      · simp [epubConcat] at h
        exact ih _ _ h

/-- The EPUB extractor fails only with an extraction failure. -/
lemma extract_text_from_epub_error (data : FileData) (e : PipelineError)
    (h : extract_text_from_epub data = .error e) : e = .extractionFailure := by
  cases data <;> simp [extract_text_from_epub] at h <;> try simp [h]
  case epubFile items =>
    cases hc : epubConcat items "" with
    | ok t => rw [hc] at h; simp [Except.map] at h
    | error e2 =>
      rw [hc] at h
      simp [Except.map] at h
      rw [← h]
      exact epubConcat_error items "" e2 hc

/-- A string has no leading and no trailing whitespace. -/
def stripped (s : String) : Bool :=
  (Option.all (fun c => !isWS c) s.data.head?) &&
    (Option.all (fun c => !isWS c) s.data.getLast?)

/-- The head of a `dropWhile` result does not satisfy the dropped
predicate. -/
lemma head?_dropWhile_false (p : Char → Bool) (l : List Char) (c : Char)
    (h : (l.dropWhile p).head? = some c) : p c = false := by
  have hw := List.head?_dropWhile_not p l
  rw [h] at hw
  exact hw

/-- `dropWhile` keeps the last element when its result is nonempty. -/
lemma getLast?_dropWhile_eq (p : Char → Bool) : ∀ (x : List Char) (c : Char),
    (x.dropWhile p).getLast? = some c → x.getLast? = some c := by
  intro x
  induction x with
  | nil => intro c h; simp at h
  | cons a t ih =>
    intro c h
    rw [List.dropWhile_cons] at h
    by_cases hp : p a = true
    · rw [if_pos hp] at h
      have ht := ih c h
      cases t with
      | nil => simp at ht
      | cons b t2 =>
        rw [List.getLast?_cons_cons]
        exact ht
    · rw [if_neg hp] at h
      exact h

/-- Stripping leaves no leading and no trailing whitespace. -/
lemma stripped_pyStrip (s : String) : stripped (pyStrip s) = true := by
  have hdata : (pyStrip s).data = stripList s.data := rfl
  unfold stripped
  rw [hdata, Bool.and_eq_true]
  constructor
  · cases hh : (stripList s.data).head? with
    | none => rfl
    | some c =>
      unfold stripList at hh
      rw [List.head?_reverse] at hh
      have h2 := getLast?_dropWhile_eq isWS _ c hh
      rw [List.getLast?_reverse] at h2
      have h3 := head?_dropWhile_false isWS _ c h2
      simp [h3]
  · cases hh : (stripList s.data).getLast? with
    | none => rfl
    | some c =>
      unfold stripList at hh
      rw [List.getLast?_reverse] at hh
      have h3 := head?_dropWhile_false isWS _ c hh
      simp [h3]

/-- Every record produced by `preprocess_document` carries the default
metadata for its input path. -/
lemma preprocess_ok_metadata (path : String) (data : FileData) (r : Record)
    (h : preprocess_document path data = .ok r) : r.metadata = defaultMetadata path := by
  unfold preprocess_document at h
  split at h
  · cases he : extract_text_from_pdf data with
    | ok t => rw [he] at h; simp [Except.map] at h; rw [← h]; rfl
    | error e => rw [he] at h; simp [Except.map] at h
  · split at h
    · cases he : extract_text_from_docx data with
      | ok t => rw [he] at h; simp [Except.map] at h; rw [← h]; rfl
      | error e => rw [he] at h; simp [Except.map] at h
    · split at h
      · cases he : extract_tables_from_excel data with
        | ok t => rw [he] at h; simp [Except.map] at h; rw [← h]; rfl
        | error e => rw [he] at h; simp [Except.map] at h
      · split at h
        · cases he : extract_text_from_ppt data with
          | ok t => rw [he] at h; simp [Except.map] at h; rw [← h]; rfl
          | error e => rw [he] at h; simp [Except.map] at h
        · split at h
          · cases he : extract_text_from_epub data with
            | ok t => rw [he] at h; simp [Except.map] at h; rw [← h]; rfl
            | error e => rw [he] at h; simp [Except.map] at h
          · cases h

/-- The list of succeeded names returned by the batch loop is exactly
the enumeration-ordered filter of the entries that pass the extension
gate and whose per-file pipeline succeeds. -/
lemma processEntries_fst (folder : String) : ∀ entries : List DirEntry,
    (processEntries folder entries).1 =
      (entries.filter fun e =>
        (e.isFile && extensions.contains (pySuffix e.name)) &&
          isOkResult (preprocess_document (joinPath folder e.name) e.data)).map
        DirEntry.name := by
  intro entries
  induction entries with
  | nil => rfl
  | cons e rest ih =>
    by_cases hfe : e.isFile = true ∧ pySuffix e.name ∈ extensions
    · cases hp : preprocess_document (joinPath folder e.name) e.data with
      | ok r => simp [processEntries, List.filter_cons, hfe, hp, isOkResult, ih]
      | error err => simp [processEntries, List.filter_cons, hfe, hp, isOkResult, ih]
    · simp [processEntries, List.filter_cons, hfe, isOkResult, ih]

/-- JSON values, at the level at which `json.dump`/`json.loads` map
Python records to and from JSON text: the textual encoding itself
(indentation, UTF-8, escaping) belongs to the external standard
library, consumed through its faithful-round-trip contract. Only the
string and object shapes occur in a normalized record. -/
inductive Json where
  | str (s : String)
  | obj (fields : List (String × Json))

/-- A dict field present only when its optional value is present. -/
def optField (k : String) : Option String → List (String × Json)
  | some v => [(k, .str v)]
  | none => []

/-- The JSON object for a metadata mapping (insertion order
author, date, source, as built by `preprocess_document`). -/
def metadataToJson (m : Metadata) : Json :=
  .obj (optField "author" m.author ++ optField "date" m.date ++ optField "source" m.src)

/-- The JSON object `json.dump` writes for a normalized record. -/
def recordToJson (r : Record) : Json :=
  .obj [("file_type", .str r.file_type), ("content", .str r.content),
        ("metadata", metadataToJson r.metadata)]

/-- Read a JSON value as a string. -/
def jsonAsStr : Json → Option String
  | .str s => some s
  | .obj _ => none

/-- Parse a metadata mapping back from JSON. -/
def metadataFromJson : Json → Option Metadata
  | .obj fs => some
      { author := (List.lookup "author" fs).bind jsonAsStr,
        date := (List.lookup "date" fs).bind jsonAsStr,
        src := (List.lookup "source" fs).bind jsonAsStr }
  | .str _ => none

/-- Parse a normalized record back from JSON. -/
def recordFromJson : Json → Option Record
  | .obj fs =>
      match (List.lookup "file_type" fs).bind jsonAsStr,
            (List.lookup "content" fs).bind jsonAsStr,
            (List.lookup "metadata" fs).bind metadataFromJson with
      | some ft, some c, some m => some { file_type := ft, content := c, metadata := m }
      | _, _, _ => none
  | .str _ => none

/-- A path that hits the PDF branch never raises the unsupported-format
error. -/
lemma no_unsupported_pdf (path : String) (data : FileData) (p2 : String)
    (h : endswith path ".pdf" = true) :
    preprocess_document path data ≠ .error (.unsupportedFormat p2) := by
  rw [dispatch_pdf path data h]
  cases he : extract_text_from_pdf data with
  | ok t => simp [Except.map]
  | error e =>
    have h2 := extract_text_from_pdf_error data e he
    simp [Except.map, h2]

/-- A path that hits the Word branch never raises the unsupported-format
error. -/
lemma no_unsupported_docx (path : String) (data : FileData) (p2 : String)
    (h : endswith path ".docx" = true) :
    preprocess_document path data ≠ .error (.unsupportedFormat p2) := by
  rw [dispatch_docx path data h]
  cases he : extract_text_from_docx data with
  | ok t => simp [Except.map]
  | error e =>
    have h2 := extract_text_from_docx_error data e he
    simp [Except.map, h2]

/-- A path that hits the Excel branch never raises the
unsupported-format error. -/
lemma no_unsupported_xlsx (path : String) (data : FileData) (p2 : String)
    (h : endswith path ".xlsx" = true) :
    preprocess_document path data ≠ .error (.unsupportedFormat p2) := by
  rw [dispatch_xlsx path data h]
  cases he : extract_tables_from_excel data with
  | ok t => simp [Except.map]
  | error e =>
    have h2 := extract_tables_from_excel_error data e he
    simp [Except.map, h2]

/-- A path that hits the PowerPoint branch never raises the
unsupported-format error. -/
lemma no_unsupported_pptx (path : String) (data : FileData) (p2 : String)
    (h : endswith path ".pptx" = true) :
    preprocess_document path data ≠ .error (.unsupportedFormat p2) := by
  rw [dispatch_pptx path data h]
  cases he : extract_text_from_ppt data with
  | ok t => simp [Except.map]
  | error e =>
    have h2 := extract_text_from_ppt_error data e he
    simp [Except.map, h2]

/-- A path that hits the EPUB branch never raises the unsupported-format
error. -/
lemma no_unsupported_epub (path : String) (data : FileData) (p2 : String)
    (h : endswith path ".epub" = true) :
    preprocess_document path data ≠ .error (.unsupportedFormat p2) := by
  rw [dispatch_epub path data h]
  cases he : extract_text_from_epub data with
  | ok t => simp [Except.map]
  | error e =>
    have h2 := extract_text_from_epub_error data e he
    simp [Except.map, h2]

/-- C1: for every input path whose extension is one of the five
supported ones, a record returned by `preprocess_document` carries
exactly the matching enumeration value in `file_type` (`.pdf` → "PDF",
`.docx` → "Word", `.xlsx` → "Excel", `.pptx` → "PowerPoint", `.epub` →
"EPUB"); `content` is never null — in the model it is a total `String`,
and failed extraction yields an error, never a partial record (last
conjunct, for a malformed file). -/
theorem preprocess_document_file_type :
    ∀ (path : String) (data : FileData) (r : Record),
      (endswith path ".pdf" = true → preprocess_document path data = .ok r →
        r.file_type = "PDF") ∧
      (endswith path ".docx" = true → preprocess_document path data = .ok r →
        r.file_type = "Word") ∧
      (endswith path ".xlsx" = true → preprocess_document path data = .ok r →
        r.file_type = "Excel") ∧
      (endswith path ".pptx" = true → preprocess_document path data = .ok r →
        r.file_type = "PowerPoint") ∧
      (endswith path ".epub" = true → preprocess_document path data = .ok r →
        r.file_type = "EPUB") ∧
      (endswith path ".pdf" = true →
        preprocess_document path FileData.corrupt = .error .extractionFailure) := by
  intro path data r
  refine ⟨?_, ?_, ?_, ?_, ?_, ?_⟩
  · intro h hok
    rw [dispatch_pdf path data h] at hok
    cases he : extract_text_from_pdf data with
    | ok t => rw [he] at hok; simp [Except.map] at hok; rw [← hok]; rfl
    | error e => rw [he] at hok; simp [Except.map] at hok
  · intro h hok
    rw [dispatch_docx path data h] at hok
    cases he : extract_text_from_docx data with
    | ok t => rw [he] at hok; simp [Except.map] at hok; rw [← hok]; rfl
    | error e => rw [he] at hok; simp [Except.map] at hok
  · intro h hok
    rw [dispatch_xlsx path data h] at hok
    cases he : extract_tables_from_excel data with
    | ok t => rw [he] at hok; simp [Except.map] at hok; rw [← hok]; rfl
    | error e => rw [he] at hok; simp [Except.map] at hok
  · intro h hok
    rw [dispatch_pptx path data h] at hok
    cases he : extract_text_from_ppt data with
    | ok t => rw [he] at hok; simp [Except.map] at hok; rw [← hok]; rfl
    | error e => rw [he] at hok; simp [Except.map] at hok
  · intro h hok
    rw [dispatch_epub path data h] at hok
    cases he : extract_text_from_epub data with
    | ok t => rw [he] at hok; simp [Except.map] at hok; rw [← hok]; rfl
    | error e => rw [he] at hok; simp [Except.map] at hok
  · intro h
    rw [dispatch_pdf path FileData.corrupt h]
    rfl

/-- Witness for C1 at a concrete input: a Word path with two paragraphs
yields a record and the theorem gives its `file_type`. -/
theorem preprocess_document_file_type_witness :
    endswith "a.docx" ".docx" = true ∧
    preprocess_document "a.docx" (.docxFile ["Hello", "World"]) =
      .ok ⟨"Word", "Hello World", ⟨some "Unknown", some "2023-10-01", some "a.docx"⟩⟩ ∧
    (⟨"Word", "Hello World",
      ⟨some "Unknown", some "2023-10-01", some "a.docx"⟩⟩ : Record).file_type = "Word" :=
  ⟨by decide, by decide,
    (preprocess_document_file_type "a.docx" (.docxFile ["Hello", "World"])
      ⟨"Word", "Hello World", ⟨some "Unknown", some "2023-10-01", some "a.docx"⟩⟩).2.1
      (by decide) (by decide)⟩

/-- C3: `preprocess_document` raises the unsupported-format error (the
only error the dispatch itself raises) exactly when the path ends with
none of the five supported suffixes; in particular `report.xyz` fails
this way whatever the file content is. -/
theorem preprocess_document_unsupported_iff :
    ∀ (path : String) (data : FileData),
      (preprocess_document path data = .error (.unsupportedFormat path) ↔
        (endswith path ".pdf" = false ∧ endswith path ".docx" = false ∧
         endswith path ".xlsx" = false ∧ endswith path ".pptx" = false ∧
         endswith path ".epub" = false)) ∧
      preprocess_document "report.xyz" data = .error (.unsupportedFormat "report.xyz") := by
  intro path data
  constructor
  · constructor
    · intro h
      refine ⟨?_, ?_, ?_, ?_, ?_⟩
      · cases hx : endswith path ".pdf" with
        | false => rfl
        | true => exact absurd h (no_unsupported_pdf path data path hx)
      · cases hx : endswith path ".docx" with
        | false => rfl
        | true => exact absurd h (no_unsupported_docx path data path hx)
      · cases hx : endswith path ".xlsx" with
        | false => rfl
        | true => exact absurd h (no_unsupported_xlsx path data path hx)
      · cases hx : endswith path ".pptx" with
        | false => rfl
        | true => exact absurd h (no_unsupported_pptx path data path hx)
      · cases hx : endswith path ".epub" with
        | false => rfl
        | true => exact absurd h (no_unsupported_epub path data path hx)
    · rintro ⟨h1, h2, h3, h4, h5⟩
      exact dispatch_unsupported path data h1 h2 h3 h4 h5
  · exact dispatch_unsupported "report.xyz" data (by decide) (by decide) (by decide)
      (by decide) (by decide)

/-- Witness for C3 at the concrete file name of the claim. -/
theorem preprocess_document_unsupported_iff_witness :
    preprocess_document "report.xyz" (.docxFile ["a"]) =
      .error (.unsupportedFormat "report.xyz") :=
  ((preprocess_document_unsupported_iff "report.xyz" (.docxFile ["a"])).1).mpr
    ⟨by decide, by decide, by decide, by decide, by decide⟩

/-- C5: every record returned by `preprocess_document` carries exactly
the default metadata: author "Unknown", the fixed placeholder date
"2023-10-01", and as source the input path's base name with the
directory portion stripped. -/
theorem preprocess_document_default_metadata :
    ∀ (path : String) (data : FileData) (r : Record),
      preprocess_document path data = .ok r →
      r.metadata.author = some "Unknown" ∧
      r.metadata.date = some "2023-10-01" ∧
      r.metadata.src = some (basename path) := by
  intro path data r h
  rw [preprocess_ok_metadata path data r h]
  exact ⟨rfl, rfl, rfl⟩

/-- Witness for C5 at a concrete input with a directory component. -/
theorem preprocess_document_default_metadata_witness :
    preprocess_document "dir/a.docx" (.docxFile ["Hi"]) =
      .ok ⟨"Word", "Hi", ⟨some "Unknown", some "2023-10-01", some "a.docx"⟩⟩ ∧
    ((⟨"Word", "Hi", ⟨some "Unknown", some "2023-10-01", some "a.docx"⟩⟩ : Record).metadata.author
        = some "Unknown" ∧
     (⟨"Word", "Hi", ⟨some "Unknown", some "2023-10-01", some "a.docx"⟩⟩ : Record).metadata.date
        = some "2023-10-01" ∧
     (⟨"Word", "Hi", ⟨some "Unknown", some "2023-10-01", some "a.docx"⟩⟩ : Record).metadata.src
        = some (basename "dir/a.docx")) :=
  ⟨by decide,
    preprocess_document_default_metadata "dir/a.docx" (.docxFile ["Hi"])
      ⟨"Word", "Hi", ⟨some "Unknown", some "2023-10-01", some "a.docx"⟩⟩ (by decide)⟩

/-- C4: `enrich_with_metadata` sets each of the three metadata fields
exactly when the corresponding argument is truthy (a `none` or an empty
string leaves the existing value untouched), changes nothing else in
the record, is a no-op on the metadata when all three arguments are
omitted, and returns the record it was given. -/
lemma truthy_none : truthy none = false := rfl

lemma truthy_some_empty : truthy (some "") = false := rfl

theorem enrich_with_metadata_truthy_fields :
    ∀ (data : Record) (author date src : Option String),
      (enrich_with_metadata data author date src).file_type = data.file_type ∧
      (enrich_with_metadata data author date src).content = data.content ∧
      (enrich_with_metadata data author date src).metadata.author =
        (if truthy author then author else data.metadata.author) ∧
      (enrich_with_metadata data author date src).metadata.date =
        (if truthy date then date else data.metadata.date) ∧
      (enrich_with_metadata data author date src).metadata.src =
        (if truthy src then src else data.metadata.src) ∧
      enrich_with_metadata data none none none = data ∧
      enrich_with_metadata data (some "") (some "") (some "") = data := by
  intro data author date src
  cases ha : truthy author <;> cases hd : truthy date <;> cases hs : truthy src <;>
    simp [enrich_with_metadata, ha, hd, hs, truthy_none, truthy_some_empty]

/-- C8: supplying only a (truthy) author to `enrich_with_metadata` sets
`metadata.author` to that value and leaves `metadata.date` and
`metadata.source` unchanged. -/
theorem enrich_author_only_frame :
    ∀ (data : Record) (a : String), a ≠ "" →
      (enrich_with_metadata data (some a) none none).metadata.author = some a ∧
      (enrich_with_metadata data (some a) none none).metadata.date = data.metadata.date ∧
      (enrich_with_metadata data (some a) none none).metadata.src = data.metadata.src := by
  intro data a h
  simp [enrich_with_metadata, truthy, h]

/-- Witness for C8 at a concrete record and author "A". -/
theorem enrich_author_only_frame_witness :
    ("A" : String) ≠ "" ∧
    ((enrich_with_metadata ⟨"Word", "c", ⟨none, some "d", some "s"⟩⟩
        (some "A") none none).metadata.author = some "A" ∧
     (enrich_with_metadata ⟨"Word", "c", ⟨none, some "d", some "s"⟩⟩
        (some "A") none none).metadata.date =
       (⟨"Word", "c", ⟨none, some "d", some "s"⟩⟩ : Record).metadata.date ∧
     (enrich_with_metadata ⟨"Word", "c", ⟨none, some "d", some "s"⟩⟩
        (some "A") none none).metadata.src =
       (⟨"Word", "c", ⟨none, some "d", some "s"⟩⟩ : Record).metadata.src) :=
  ⟨by decide,
    enrich_author_only_frame ⟨"Word", "c", ⟨none, some "d", some "s"⟩⟩ "A" (by decide)⟩

/-- C2: `process_folder` isolates per-file failures — it catches them,
does not re-raise, continues with the next file, and returns exactly
the enumeration-ordered names of the entries that pass the extension
filter and whose pipeline succeeds (failed names are absent). On a
directory with one valid `.docx` and one corrupted `.pdf` it returns
only the `.docx` name and writes exactly one output JSON file. -/
theorem process_folder_successes :
    ∀ (folder : String) (entries : List DirEntry),
      (process_folder folder entries).1 =
        (entries.filter fun e =>
          (e.isFile && extensions.contains (pySuffix e.name)) &&
            isOkResult (preprocess_document (joinPath folder e.name) e.data)).map
          DirEntry.name ∧
      process_folder "."
          [⟨"good.docx", true, .docxFile ["Hello", "World"]⟩,
           ⟨"bad.pdf", true, .corrupt⟩] =
        (["good.docx"],
         [("good_normalized.json",
           ⟨"Word", "Hello World", ⟨some "Unknown", some "2023-10-01", some "good.docx"⟩⟩)]) := by
  intro folder entries
  exact ⟨processEntries_fst folder entries, by decide⟩

/-- C6: each text extractor (PDF, Word, PowerPoint, EPUB) returns a
string with no leading and no trailing whitespace whenever it returns
at all. -/
theorem extract_text_trimmed :
    ∀ (d : FileData) (s : String),
      (extract_text_from_pdf d = .ok s → stripped s = true) ∧
      (extract_text_from_docx d = .ok s → stripped s = true) ∧
      (extract_text_from_ppt d = .ok s → stripped s = true) ∧
      (extract_text_from_epub d = .ok s → stripped s = true) := by
  intro d s
  refine ⟨?_, ?_, ?_, ?_⟩ <;> intro h
  · cases d <;> simp [extract_text_from_pdf] at h
    rw [← h]
    exact stripped_pyStrip _
  · cases d <;> simp [extract_text_from_docx] at h
    rw [← h]
    exact stripped_pyStrip _
  · cases d <;> simp [extract_text_from_ppt] at h
    rw [← h]
    exact stripped_pyStrip _
  · cases d <;> simp [extract_text_from_epub] at h
    case epubFile items =>
      cases hc : epubConcat items "" with
      | ok t =>
        rw [hc] at h
        simp [Except.map] at h
        rw [← h]
        exact stripped_pyStrip _
      | error e => rw [hc] at h; simp [Except.map] at h

/-- Witness for C6 at concrete documents for each extractor. -/
theorem extract_text_trimmed_witness :
    (extract_text_from_pdf (.pdfFile [some " a ", none, some ""]) = .ok "a" ∧
      stripped "a" = true) ∧
    (extract_text_from_docx (.docxFile ["Hello", "World"]) = .ok "Hello World" ∧
      stripped "Hello World" = true) ∧
    (extract_text_from_ppt (.pptxFile [[some "T1", none], [some "T2"]]) = .ok "T1\nT2" ∧
      stripped "T1\nT2" = true) ∧
    (extract_text_from_epub (.epubFile [(true, some " x"), (false, none), (true, some "y ")]) =
        .ok "xy" ∧
      stripped "xy" = true) :=
  ⟨⟨by decide, (extract_text_trimmed (.pdfFile [some " a ", none, some ""]) "a").1 (by decide)⟩,
   ⟨by decide, (extract_text_trimmed (.docxFile ["Hello", "World"]) "Hello World").2.1
      (by decide)⟩,
   ⟨by decide, (extract_text_trimmed (.pptxFile [[some "T1", none], [some "T2"]]) "T1\nT2").2.2.1
      (by decide)⟩,
   ⟨by decide,
    (extract_text_trimmed (.epubFile [(true, some " x"), (false, none), (true, some "y ")])
      "xy").2.2.2 (by decide)⟩⟩

/-- C7: `extract_tables_from_excel` yields the sheet-name to
row-records mapping exactly as the decoder exposes it (concrete
scenario: sheet "Sheet1" with rows A:1,B:2 and A:3,B:4), and
`preprocess_document` places the single-string conversion of that
mapping — not the structured mapping — into `content`. -/
theorem excel_extraction_and_stringify :
    ∀ (sheets : TableSet) (path : String) (data : FileData) (r : Record),
      extract_tables_from_excel (.xlsxFile sheets) = .ok sheets ∧
      (endswith path ".xlsx" = true → data = .xlsxFile sheets →
        preprocess_document path data = .ok r → r.content = pyStrTables sheets) ∧
      extract_tables_from_excel
          (.xlsxFile [("Sheet1", [[("A", .intVal 1), ("B", .intVal 2)],
                                  [("A", .intVal 3), ("B", .intVal 4)]])]) =
        .ok [("Sheet1", [[("A", .intVal 1), ("B", .intVal 2)],
                         [("A", .intVal 3), ("B", .intVal 4)]])] ∧
      pyStrTables [("Sheet1", [[("A", .intVal 1), ("B", .intVal 2)],
                               [("A", .intVal 3), ("B", .intVal 4)]])] =
        "\x7b\x27Sheet1\x27: [\x7b\x27A\x27: 1, \x27B\x27: 2\x7d, \x7b\x27A\x27: 3, \x27B\x27: 4\x7d]\x7d" := by
  intro sheets path data r
  refine ⟨rfl, ?_, rfl, by decide⟩
  intro h hdata hok
  rw [hdata] at hok
  rw [dispatch_xlsx path (.xlsxFile sheets) h] at hok
  have he : extract_tables_from_excel (.xlsxFile sheets) = .ok sheets := rfl
  rw [he] at hok
  simp [Except.map] at hok
  rw [← hok]
  rfl

/-- Witness for C7 at the concrete spreadsheet of the claim. -/
theorem excel_extraction_and_stringify_witness :
    endswith "t.xlsx" ".xlsx" = true ∧
    preprocess_document "t.xlsx"
        (.xlsxFile [("Sheet1", [[("A", .intVal 1), ("B", .intVal 2)],
                                [("A", .intVal 3), ("B", .intVal 4)]])]) =
      .ok ⟨"Excel",
           "\x7b\x27Sheet1\x27: [\x7b\x27A\x27: 1, \x27B\x27: 2\x7d, \x7b\x27A\x27: 3, \x27B\x27: 4\x7d]\x7d",
           ⟨some "Unknown", some "2023-10-01", some "t.xlsx"⟩⟩ ∧
    (⟨"Excel",
      "\x7b\x27Sheet1\x27: [\x7b\x27A\x27: 1, \x27B\x27: 2\x7d, \x7b\x27A\x27: 3, \x27B\x27: 4\x7d]\x7d",
      ⟨some "Unknown", some "2023-10-01", some "t.xlsx"⟩⟩ : Record).content =
      pyStrTables [("Sheet1", [[("A", .intVal 1), ("B", .intVal 2)],
                               [("A", .intVal 3), ("B", .intVal 4)]])] :=
  ⟨by decide, by decide,
    (excel_extraction_and_stringify
        [("Sheet1", [[("A", .intVal 1), ("B", .intVal 2)],
                     [("A", .intVal 3), ("B", .intVal 4)]])]
        "t.xlsx"
        (.xlsxFile [("Sheet1", [[("A", .intVal 1), ("B", .intVal 2)],
                                [("A", .intVal 3), ("B", .intVal 4)]])])
        ⟨"Excel",
         "\x7b\x27Sheet1\x27: [\x7b\x27A\x27: 1, \x27B\x27: 2\x7d, \x7b\x27A\x27: 3, \x27B\x27: 4\x7d]\x7d",
         ⟨some "Unknown", some "2023-10-01", some "t.xlsx"⟩⟩).2.1
      (by decide) rfl (by decide)⟩

/-- C9: serializing a normalized record to JSON, as the batch driver
writes it, and parsing the JSON back yields a record equal to the
original in all three top-level fields. -/
theorem record_json_roundtrip :
    ∀ r : Record, recordFromJson (recordToJson r) = some r := by
  intro r
  rcases r with ⟨ft, c, m⟩
  rcases m with ⟨a, d, s⟩
  rcases a with _ | av <;> rcases d with _ | dv <;> rcases s with _ | sv <;> rfl

/-- C10: the two public entry points disagree about a file named
exactly ".pdf": `preprocess_document` dispatches it to the PDF
extractor (the path string ends with ".pdf"), while `process_folder`
excludes it from the batch because its `pathlib` suffix is empty and
hence not in the supported set. -/
theorem entry_point_extension_disagreement :
    endswith ".pdf" ".pdf" = true ∧
    preprocess_document ".pdf" (.pdfFile [some "x"]) =
      .ok ⟨"PDF", "x", ⟨some "Unknown", some "2023-10-01", some ".pdf"⟩⟩ ∧
    pySuffix ".pdf" = "" ∧
    extensions.contains (pySuffix ".pdf") = false ∧
    process_folder "." [⟨".pdf", true, .pdfFile [some "x"]⟩] = ([], []) :=
  ⟨by decide, by decide, by decide, by decide, by decide⟩

end PreprocessPipeline
